import Mathlib

/-! Shallow embedding of the Pinkmemory memory core
(src/services/api.ts, src/services/memory.ts, and the memory-related
blocks of src/pages/UploaderSTMPage.tsx) together with theorems settling
the frozen claims C1 to C10.

JavaScript numbers are modelled as real numbers; `Math.sqrt` is
`Real.sqrt` and `Math.pow` is `Real.rpow`.  Optional / possibly-`undefined`
fields are modelled as `Option` values, and the JavaScript truthiness
tests that the source performs on them (`x || d`, `x ?? d`, `!x`) are
modelled by explicit helper functions below.
-/

namespace Pinkmemory

noncomputable section

/-- Model of `normalize(val, min, max)` from src/services/api.ts: `0` on a
degenerate range, otherwise `(val - min) / (max - min)` clamped into
`[0, 1]` with `Math.max(0, Math.min(1, _))`. -/
def normalize (val mn mx : ℝ) : ℝ :=
  if mx = mn then 0 else max 0 (min 1 ((val - mn) / (mx - mn)))

/-- The dot-product loop of `cosine` in src/services/api.ts
(`dot += a[i] * b[i]`); on equal-length vectors the `(a[i] || 0)`
guards of the source are the identity. -/
def dotProd : List ℝ → List ℝ → ℝ
  | a :: as, b :: bs => a * b + dotProd as bs
  | _, _ => 0

/-- The `normA` / `normB` accumulator of `cosine`
(`normA += a[i] * a[i]`). -/
def sumSq (l : List ℝ) : ℝ := dotProd l l

/-- Model of `cosine(a, b)` from src/services/api.ts.  `none` models a
null/undefined vector argument.  Returns `0` when either argument is
nullish, the lengths differ, the vectors are empty, or either norm is
zero; otherwise `dot / (sqrt(normA) * sqrt(normB))` clamped into
`[-1, 1]` by `Math.max(-1, Math.min(1, _))`. -/
def cosine : Option (List ℝ) → Option (List ℝ) → ℝ
  | none, _ => 0
  | some _, none => 0
  | some a, some b =>
    if a.length ≠ b.length ∨ a.length = 0 then 0
    else
      if sumSq a = 0 ∨ sumSq b = 0 then 0
      else max (-1) (min 1 (dotProd a b / (Real.sqrt (sumSq a) * Real.sqrt (sumSq b))))

/-- The `brainDominance` sub-object of the AI meta-scoring payload in
`buildMetaVectorFromAI` (src/services/api.ts); a field is `none` when
the JSON sub-field is missing. -/
structure BrainDominance where
  leftBrain : Option ℝ := none
  rightBrain : Option ℝ := none

/-- The `processingStyle` sub-object of the meta-scoring payload. -/
structure ProcessingStyle where
  reflexive : Option ℝ := none
  reasoning : Option ℝ := none

/-- The `emotionalAnalysis` sub-object of the meta-scoring payload. -/
structure EmotionalAnalysis where
  joy : Option ℝ := none
  intensity : Option ℝ := none
  engagement : Option ℝ := none
  complexity : Option ℝ := none
  sentiment : Option ℝ := none

/-- The `conversationMetrics` sub-object of the meta-scoring payload. -/
structure ConversationMetrics where
  depth : Option ℝ := none
  coherence : Option ℝ := none
  engagement : Option ℝ := none
  topicStability : Option ℝ := none

/-- The `cognitiveStyle` sub-object of the meta-scoring payload. -/
structure CognitiveStyle where
  strength : Option ℝ := none

/-- The structured scoring object handed to `buildMetaVectorFromAI`; a
nested object is `none` when missing or null in the payload. -/
structure MetaScoring where
  brainDominance : Option BrainDominance := none
  processingStyle : Option ProcessingStyle := none
  emotionalAnalysis : Option EmotionalAnalysis := none
  conversationMetrics : Option ConversationMetrics := none
  cognitiveStyle : Option CognitiveStyle := none

/-- The default object `{ leftBrain: 0, rightBrain: 0 }` substituted by
`meta.brainDominance || ...` when the whole object is missing. -/
def bdDefault : BrainDominance := ⟨some 0, some 0⟩

/-- The default object `{ reflexive: 0, reasoning: 0 }`. -/
def psDefault : ProcessingStyle := ⟨some 0, some 0⟩

/-- The default `{ joy: 0, intensity: 0, engagement: 0, complexity: 0, sentiment: 0 }`. -/
def eaDefault : EmotionalAnalysis := ⟨some 0, some 0, some 0, some 0, some 0⟩

/-- The default `{ depth: 0, coherence: 0, engagement: 0, topicStability: 0 }`. -/
def cmDefault : ConversationMetrics := ⟨some 0, some 0, some 0, some 0⟩

/-- The default `{ strength: 0 }`. -/
def csDefault : CognitiveStyle := ⟨some 0⟩

/-- Model of `buildMetaVectorFromAI(meta)` from src/services/api.ts.  Each nested
object is replaced by its zero-default with `||` only when the whole
object is nullish; an entry is `none` when the corresponding sub-field
of a *present* object is missing (the JavaScript code then emits
`undefined`, or `NaN` once passed through `normalize`). -/
def buildMetaVectorFromAI (meta : MetaScoring) : List (Option ℝ) :=
  let bd := meta.brainDominance.getD bdDefault
  let ps := meta.processingStyle.getD psDefault
  let ea := meta.emotionalAnalysis.getD eaDefault
  let cm := meta.conversationMetrics.getD cmDefault
  let cs := meta.cognitiveStyle.getD csDefault
  [bd.leftBrain,
   bd.rightBrain,
   ps.reflexive,
   ps.reasoning,
   ea.joy,
   ea.intensity,
   ea.engagement,
   ea.complexity,
   ea.sentiment.map (fun v => normalize v (-1) 1),
   cm.depth.map (fun v => normalize v 0 100),
   cm.coherence.map (fun v => normalize v 0 100),
   cm.engagement.map (fun v => normalize v 0 100),
   cm.topicStability.map (fun v => normalize v 0 100),
   cs.strength.map (fun v => normalize v 0 100)]

/-- The `MemoryChunk` record of src/services/memory.ts.  Fields that the
TypeScript interface marks optional, or that callers may omit at
runtime, are `Option`s; `none` models `undefined`. -/
structure MemoryChunk where
  id : Option ℤ := none
  text : Option String := none
  embedding : Option (List ℝ) := none
  metaVector : Option (List ℝ) := none
  timestamp : Option ℝ := none
  lastAccessed : Option ℝ := none
  score : Option ℝ := none
  agentId : String := ""
  meta : Option MetaScoring := none
  source : String := ""
  semanticSim : Option ℝ := none
  metaSim : Option ℝ := none
  simScore : Option ℝ := none
  finalScore : Option ℝ := none

/-- JavaScript `x || d` on an optional number: `undefined`/`null` and
`0` are falsy and select the default `d`. -/
def orD (x : Option ℝ) (d : ℝ) : ℝ :=
  match x with
  | none => d
  | some v => if v = 0 then d else v

/-- JavaScript truthiness test `!s` on an optional string: nullish or
empty strings are falsy. -/
def falsyText : Option String → Bool
  | none => true
  | some s => s == ""

/-- JavaScript truthiness test `!v` on an optional array: only nullish
values are falsy — an *empty array* is truthy. -/
def falsyVec : Option (List ℝ) → Bool
  | none => true
  | some _ => false

/-- The `enrichedChunk` object built inside `stm_addChunk` /
`ltm_addChunk`: `score: chunk.score ?? 1.0`,
`timestamp: chunk.timestamp ?? Date.now()`,
`lastAccessed: chunk.lastAccessed ?? chunk.timestamp ?? Date.now()`
(`??` keeps an explicit `0`), plus the auto-increment key the store
assigns on `add`. -/
def enrichChunk (now : ℝ) (newId : ℤ) (chunk : MemoryChunk) : MemoryChunk :=
  { chunk with
    score := some (chunk.score.getD 1),
    timestamp := some (chunk.timestamp.getD now),
    lastAccessed := some (chunk.lastAccessed.getD (chunk.timestamp.getD now)),
    id := some newId }

/-- Model of `stm_addChunk(chunk)` from src/services/memory.ts, modelled as a
pure transformer of the store contents.  `now` is `Date.now()` and
`newId` the auto-increment key IndexedDB assigns.  The guard is the
source's `!chunk.text || !chunk.embedding || !chunk.metaVector`. -/
def stm_addChunk (now : ℝ) (newId : ℤ) (store : List MemoryChunk) (chunk : MemoryChunk) :
    Except String (List MemoryChunk × ℤ) :=
  if falsyText chunk.text || falsyVec chunk.embedding || falsyVec chunk.metaVector then
    Except.error "Invalid chunk data provided"
  else
    Except.ok (store ++ [enrichChunk now newId chunk], newId)

/-- Model of `ltm_addChunk(chunk)` from src/services/memory.ts; its body is a
verbatim duplicate of `stm_addChunk` acting on the long-term store. -/
def ltm_addChunk (now : ℝ) (newId : ℤ) (store : List MemoryChunk) (chunk : MemoryChunk) :
    Except String (List MemoryChunk × ℤ) :=
  if falsyText chunk.text || falsyVec chunk.embedding || falsyVec chunk.metaVector then
    Except.error "Invalid chunk data provided"
  else
    Except.ok (store ++ [enrichChunk now newId chunk], newId)

/-- Keyed store lookup, `store.get(id)`. -/
def getChunk (store : List MemoryChunk) (id : ℤ) : Option MemoryChunk :=
  store.find? (fun c => decide (c.id = some id))

/-- Keyed overwrite, `store.put(chunk)` for a chunk carrying key `id`. -/
def putChunk (store : List MemoryChunk) (id : ℤ) (c1 : MemoryChunk) :
    List MemoryChunk :=
  store.map (fun c => if c.id = some id then c1 else c)

/-- Model of `stm_boostMemoryChunk(id, boost = 1)` from src/services/memory.ts:
rejects a non-positive id, fails when no record has the id, and
otherwise persists `score = (chunk.score || 1) + boost` and
`lastAccessed = Date.now()`. -/
def stm_boostMemoryChunk (now : ℝ) (store : List MemoryChunk) (id : ℤ) (boost : ℝ) :
    Except String (List MemoryChunk) :=
  if id ≤ 0 then Except.error "Invalid ID for STM boost"
  else
    match getChunk store id with
    | none => Except.error "Chunk not found"
    | some chunk =>
      Except.ok (putChunk store id
        { chunk with score := some (orD chunk.score 1 + boost), lastAccessed := some now })

/-- The decayed score computed per record by `stm_decayMemoryStore`:
`(chunk.score || 1) * Math.pow(rate, hours)` where
`hours = (now - (chunk.lastAccessed || chunk.timestamp || now)) / 3600000`. -/
def decayedScore (now rate : ℝ) (c : MemoryChunk) : ℝ :=
  orD c.score 1 * rate ^ ((now - orD c.lastAccessed (orD c.timestamp now)) / 3600000)

/-- The record as rewritten by the decay cursor (`chunk.score = ...`). -/
def decayChunk (now rate : ℝ) (c : MemoryChunk) : MemoryChunk :=
  { c with score := some (decayedScore now rate c) }

/-- Model of `stm_decayMemoryStore(rate = 0.995, minScore = 0.05)` from
src/services/memory.ts: one cursor sweep over the store, deleting every
record whose decayed score is below `minScore` (counted in `deleted`)
and persisting the new score otherwise (counted in `updated`); returns
the surviving store together with `(updated, deleted)`. -/
def stm_decayMemoryStore (now rate minScore : ℝ) :
    List MemoryChunk → List MemoryChunk × ℕ × ℕ
  | [] => ([], 0, 0)
  | c :: rest =>
    let s := decayedScore now rate c
    let r := stm_decayMemoryStore now rate minScore rest
    if s < minScore then (r.1, r.2.1, r.2.2 + 1)
    else (decayChunk now rate c :: r.1, r.2.1 + 1, r.2.2)

/-- The final score a sorted candidate carries
(`b.finalScore - a.finalScore` reads the field just assigned). -/
def fsVal (c : MemoryChunk) : ℝ := c.finalScore.getD 0

/-- Descending final-score order, the comparator
`(a, b) => b.finalScore - a.finalScore` of the retrieval blocks. -/
def rankGE (a b : MemoryChunk) : Prop := fsVal b ≤ fsVal a

instance : DecidableRel rankGE := fun _ _ => Real.decidableLE _ _

instance : IsTotal MemoryChunk rankGE := ⟨fun a b => le_total (fsVal b) (fsVal a)⟩

instance : IsTrans MemoryChunk rankGE := ⟨fun _ _ _ h1 h2 => le_trans h2 h1⟩

/-- The per-record scoring step of the STM/LTM retrieval blocks in
`handleSubmit` (src/pages/UploaderSTMPage.tsx): cosine similarities
against the query, `simScore = 0.6 * semanticSim + 0.4 * metaSim`,
`finalScore = simScore * 0.85 + normalize(mem.score || 1, 0, 5) * 0.15`. -/
def scoreRecord (embedding metaVector : List ℝ) (mem : MemoryChunk) : MemoryChunk :=
  let semanticSim := cosine (some embedding) mem.embedding
  let metaSim := cosine (some metaVector) mem.metaVector
  let simScore := semanticSim * 0.6 + metaSim * 0.4
  let memScoreNormalized := normalize (orD mem.score 1) 0 5
  let finalScore := simScore * 0.85 + memScoreNormalized * 0.15
  { mem with semanticSim := some semanticSim, metaSim := some metaSim,
             simScore := some simScore, finalScore := some finalScore }

/-- The retrieval ranking of `handleSubmit`: when the store is
non-empty, map every record through `scoreRecord`, sort descending by
`finalScore` and keep the first three; an empty store contributes an
empty result list instead of failing. -/
def rankStore (embedding metaVector : List ℝ) (store : List MemoryChunk) :
    List MemoryChunk :=
  if store.length > 0 then
    ((store.map (scoreRecord embedding metaVector)).insertionSort rankGE).take 3
  else []

/-- Inputs reaching the completion callback of
`performAutonomousReflection` (src/pages/UploaderSTMPage.tsx): the
accumulated reflection text, which credentials are configured, the
successful Agent-B embedding / meta-scoring results, and the outcome of
the Agent-C (long-term) embedding / meta-scoring step, which may fail. -/
structure ReflectionCtx where
  reflection : String
  apiKeyB : Bool
  apiKeyC : Bool
  embeddingB : List ℝ
  metaB : MetaScoring
  metaVectorB : List ℝ
  ltmData : Except String (List ℝ × MetaScoring × List ℝ)
  nowSTM : ℝ
  nowLTM : ℝ

/-- The chunk handed to `stm_addChunk` for a completed reflection:
seed score 2.0, source "Autonomous Reflection". -/
def stmReflectionChunk (ctx : ReflectionCtx) : MemoryChunk :=
  { text := some ctx.reflection
    embedding := some ctx.embeddingB
    metaVector := some ctx.metaVectorB
    timestamp := some ctx.nowSTM
    score := some 2
    agentId := "agent-autonomous-reflection"
    meta := some ctx.metaB
    source := "Autonomous Reflection" }

/-- The chunk handed to `ltm_addChunk` for a completed reflection:
seed score 2.5, source "Autonomous Reflection (LTM)". -/
def ltmReflectionChunk (ctx : ReflectionCtx)
    (emb : List ℝ) (m : MetaScoring) (mv : List ℝ) : MemoryChunk :=
  { text := some ctx.reflection
    embedding := some emb
    metaVector := some mv
    timestamp := some ctx.nowLTM
    score := some 2.5
    agentId := "agent-autonomous-reflection-ltm"
    meta := some m
    source := "Autonomous Reflection (LTM)" }

/-- The completion callback body of `performAutonomousReflection`
(src/pages/UploaderSTMPage.tsx, lines 417-468), modelled as a
transformer of the two stores.  Guarded by
`if (reflection && settings.apiKeyB)`; the short-term insert runs
first; the long-term block runs only when `apiKeyC` is configured and
every failure inside it (embedding, meta-scoring, or the insert) is
caught, leaving the short-term write in place. -/
def reflectionComplete (ctx : ReflectionCtx)
    (stm ltm : List MemoryChunk) (stmId ltmId : ℤ) :
    List MemoryChunk × List MemoryChunk :=
  if ctx.reflection ≠ "" ∧ ctx.apiKeyB then
    match stm_addChunk ctx.nowSTM stmId stm (stmReflectionChunk ctx) with
    | Except.error _ => (stm, ltm)
    | Except.ok (stm1, _) =>
      if ctx.apiKeyC then
        match ctx.ltmData with
        | Except.error _ => (stm1, ltm)
        | Except.ok (emb, m, mv) =>
          match ltm_addChunk ctx.nowLTM ltmId ltm (ltmReflectionChunk ctx emb m mv) with
          | Except.error _ => (stm1, ltm)
          | Except.ok (ltm1, _) => (stm1, ltm1)
      else (stm1, ltm)
  else (stm, ltm)

/-- JavaScript `\s` restricted to the ASCII range: space, tab, newline,
carriage return, vertical tab and form feed. -/
def isWS (c : Char) : Bool :=
  c == ' ' || c == '\t' || c == '\n' || c == '\r' || c == '\x0b' || c == '\x0c'

/-- Helper for the `/\n\s*\n/` separator: given the characters after an
initial newline, returns the suffix following the *last* newline inside
the leading whitespace run (the greedy `\s*` backtracks to the last
newline it can leave for the closing `\n`), or `none` when that run
contains no newline and the regex cannot match here. -/
def afterLastNL : List Char → Option (List Char)
  | [] => none
  | c :: cs =>
    if isWS c then
      match afterLastNL cs with
      | some r => some r
      | none => if c == '\n' then some cs else none
    else none

/-- Prepends a character to the first paragraph of an accumulated
paragraph list. -/
def consHead (c : Char) : List (List Char) → List (List Char)
  | [] => [[c]]
  | p :: ps => (c :: p) :: ps

/-- Fuelled worker for `text.split(/\n\s*\n/)`: scans the text, starting
a new paragraph at every match of the separator regex.  The fuel is at
least the number of remaining characters, so it never runs out when
called through `splitOnBlank`. -/
def splitOnBlankF : ℕ → List Char → List (List Char)
  | _, [] => [[]]
  | 0, cs => [cs]
  | fuel + 1, c :: cs =>
    if c == '\n' then
      match afterLastNL cs with
      | some rest => [] :: splitOnBlankF fuel rest
      | none => consHead c (splitOnBlankF fuel cs)
    else consHead c (splitOnBlankF fuel cs)

/-- Model of `text.split(/\n\s*\n/)` from `chunkText` in src/services/memory.ts. -/
def splitOnBlank (cs : List Char) : List (List Char) :=
  splitOnBlankF cs.length cs

/-- JavaScript `String.prototype.trim` (ASCII whitespace). -/
def jsTrim (cs : List Char) : List Char :=
  ((cs.dropWhile isWS).reverse.dropWhile isWS).reverse

/-- Sentence-terminator class `[.!?]` of the sentence regex. -/
def isTerm (c : Char) : Bool := c == '.' || c == '!' || c == '?'

/-- Fuelled worker computing all matches of
`/[^.!?]+(?:[.!?]|$)\s*/g` in order: a maximal nonempty run of
non-terminators, one terminator if present (otherwise end of string),
then the following whitespace; positions that cannot start a match are
skipped.  Fuel at least the text length suffices. -/
def sentencesF : ℕ → List Char → List (List Char)
  | _, [] => []
  | 0, cs => [cs]
  | fuel + 1, c :: cs =>
    if isTerm c then sentencesF fuel cs
    else
      let body := (c :: cs).takeWhile (fun x => ! isTerm x)
      match (c :: cs).dropWhile (fun x => ! isTerm x) with
      | [] => [body]
      | t :: rest =>
        (body ++ t :: rest.takeWhile isWS) :: sentencesF fuel (rest.dropWhile isWS)

/-- Model of `p.match(/[^.!?]+(?:[.!?]|$)\s*/g) || [p]` from `chunkText`: the
match list, or the whole paragraph when there is no match. -/
def jsSentences (p : List Char) : List (List Char) :=
  match sentencesF p.length p with
  | [] => [p]
  | ms => ms

/-- Emits the accumulator if it meets `MIN_CHUNK_LEN` (50), as done at
every flush point of `chunkText`. -/
def flushChunk (current : List Char) : List (List Char) :=
  if 50 ≤ current.length then [current] else []

/-- Fuelled worker for the hard split of a single over-long sentence:
`for (i = 0; i < s.length; i += MAX_CHUNK_LEN)` taking
`s.substring(i, i + 1000).trim()` and keeping pieces of length ≥ 50. -/
def hardSplitF : ℕ → List Char → List (List Char)
  | _, [] => []
  | 0, _ => []
  | fuel + 1, c :: cs =>
    let sub := jsTrim ((c :: cs).take 1000)
    (if 50 ≤ sub.length then [sub] else []) ++ hardSplitF fuel ((c :: cs).drop 1000)

/-- Hard split of a sentence longer than `MAX_CHUNK_LEN`. -/
def hardSplit (s : List Char) : List (List Char) :=
  hardSplitF s.length s

/-- The greedy sentence-packing loop of `chunkText` for an oversized
paragraph: sentences are trimmed, empty ones skipped, and appended to
`current` (joined by one space) while `current.length + s.length` stays
within 1000; on overflow the accumulator is flushed and the sentence
either becomes the new accumulator or, when itself longer than 1000, is
hard split.  The trailing accumulator is flushed at the end. -/
def packLoop : List (List Char) → List Char → List (List Char)
  | [], current => flushChunk current
  | s0 :: rest, current =>
    let s := jsTrim s0
    if s.isEmpty then packLoop rest current
    else if current.length + s.length ≤ 1000 then
      packLoop rest (if current.isEmpty then s else current ++ ' ' :: s)
    else
      flushChunk current ++
        (if s.length ≤ 1000 then packLoop rest s
         else hardSplit s ++ packLoop rest [])

/-- Model of `chunkText(text)` from src/services/memory.ts
(`MAX_CHUNK_LEN = 1000`, `MIN_CHUNK_LEN = 50`; a paragraph within
`1.2 × MAX_CHUNK_LEN = 1200` characters is kept whole when it meets the
minimum length, an oversized one goes through sentence packing, and a
final filter keeps only chunks of length ≥ 50). -/
def chunkText (text : List Char) : List (List Char) :=
  let paragraphs := ((splitOnBlank text).map jsTrim).filter (fun p => ! p.isEmpty)
  let chunks := paragraphs.flatMap (fun p =>
    if p.length ≤ 1200 then (if 50 ≤ p.length then [p] else [])
    else packLoop (jsSentences p) [])
  chunks.filter (fun c => decide (50 ≤ c.length))

/-- A record with an explicitly supplied score of `0`, reachable through
`stm_addChunk` because `??` keeps explicit zeros. -/
def cZeroScore : MemoryChunk :=
  { id := some 1, text := some "m", score := some 0 }

/-- A valid-text chunk whose vectors are present but *empty* arrays. -/
def cEmptyVec : MemoryChunk :=
  { text := some "a", embedding := some [], metaVector := some [] }

/-- A stored record with unit embedding and meta-vector and an explicit
zero score, used to exercise the ranking formula. -/
def rCex : MemoryChunk :=
  { embedding := some [1], metaVector := some [1], score := some 0 }

/-- A fully valid input chunk for `add`. -/
def cAdd : MemoryChunk :=
  { text := some "hello", embedding := some [1], metaVector := some [1] }

/-- A stored record with a positive score, used for boosting. -/
def cBoost : MemoryChunk :=
  { id := some 1, text := some "m", score := some 3 }

/-- A chunk with every optional field missing. -/
def cW : MemoryChunk := {}

/-- A reflection context in which both credentials are configured and
the long-term embedding/meta step succeeds. -/
def ctxOk : ReflectionCtx :=
  { reflection := "r", apiKeyB := true, apiKeyC := true,
    embeddingB := [1], metaB := {}, metaVectorB := [1],
    ltmData := Except.ok ([1], {}, [1]), nowSTM := 0, nowLTM := 1 }

/-- The same reflection context, but with the long-term step failing. -/
def ctxFail : ReflectionCtx :=
  { ctxOk with ltmData := Except.error "ltm failed" }

theorem dotProd_comm : ∀ a b : List ℝ, dotProd a b = dotProd b a := by
  intro a
  induction a with
  | nil => intro b; cases b <;> simp [dotProd]
  | cons x xs ih =>
    intro b
    cases b with
    | nil => simp [dotProd]
    | cons y ys => simp [dotProd, ih ys, mul_comm]

theorem sumSq_nonneg : ∀ a : List ℝ, 0 ≤ sumSq a := by
  intro a
  induction a with
  | nil => simp [sumSq, dotProd]
  | cons x xs ih =>
    have : sumSq (x :: xs) = x * x + sumSq xs := rfl
    rw [this]
    exact add_nonneg (mul_self_nonneg x) ih

theorem cosine_le_one (x y : Option (List ℝ)) : cosine x y ≤ 1 := by
  cases x with
  | none => simp [cosine]
  | some a =>
    cases y with
    | none => simp [cosine]
    | some b =>
      simp only [cosine]
      split
      · norm_num
      · split
        · norm_num
        · exact max_le (by norm_num) (min_le_left _ _)

theorem neg_one_le_cosine (x y : Option (List ℝ)) : -1 ≤ cosine x y := by
  cases x with
  | none => simp [cosine]
  | some a =>
    cases y with
    | none => simp [cosine]
    | some b =>
      simp only [cosine]
      split
      · norm_num
      · split
        · norm_num
        · exact le_max_left _ _

theorem cosine_comm (x y : Option (List ℝ)) : cosine x y = cosine y x := by
  cases x with
  | none => cases y <;> simp [cosine]
  | some a =>
    cases y with
    | none => simp [cosine]
    | some b =>
      simp only [cosine]
      by_cases hlen : a.length = b.length
      · by_cases hz : a.length = 0
        · rw [if_pos (Or.inr hz), if_pos (Or.inr (hlen ▸ hz))]
        · have hbz : ¬ b.length = 0 := by rw [← hlen]; exact hz
          have h1 : ¬ (a.length ≠ b.length ∨ a.length = 0) :=
            fun h => h.elim (fun hne => hne hlen) hz
          have h2 : ¬ (b.length ≠ a.length ∨ b.length = 0) :=
            fun h => h.elim (fun hne => hne hlen.symm) hbz
          rw [if_neg h1, if_neg h2, dotProd_comm a b]
          by_cases hna : sumSq a = 0
          · rw [if_pos (Or.inl hna), if_pos (Or.inr hna)]
          · by_cases hnb : sumSq b = 0
            · rw [if_pos (Or.inr hnb), if_pos (Or.inl hnb)]
            · have h3 : ¬ (sumSq a = 0 ∨ sumSq b = 0) := fun h => h.elim hna hnb
              have h4 : ¬ (sumSq b = 0 ∨ sumSq a = 0) := fun h => h.elim hnb hna
              rw [if_neg h3, if_neg h4, mul_comm (Real.sqrt (sumSq a))]
      · rw [if_pos (Or.inl hlen), if_pos (Or.inl (fun h => hlen h.symm))]

/-- C6 (amended): `cosine(a, a) = 1` for every vector `a` that is
non-empty and has nonzero norm (the original claim omitted the nonzero
norm requirement); `cosine` is symmetric; its result always lies in
`[-1, 1]`; and it returns `0` on nullish arguments, unequal lengths,
empty vectors, and zero-norm vectors. -/
theorem cosine_spec :
    (∀ a : List ℝ, a ≠ [] → sumSq a ≠ 0 → cosine (some a) (some a) = 1)
    ∧ (∀ x y, cosine x y = cosine y x)
    ∧ (∀ x y, -1 ≤ cosine x y ∧ cosine x y ≤ 1)
    ∧ (∀ x, cosine none x = 0 ∧ cosine x none = 0)
    ∧ (∀ a b : List ℝ, a.length ≠ b.length → cosine (some a) (some b) = 0)
    ∧ (∀ y, cosine (some []) y = 0)
    ∧ (∀ a b : List ℝ, sumSq a = 0 ∨ sumSq b = 0 → cosine (some a) (some b) = 0) := by
  refine ⟨?_, cosine_comm, fun x y => ⟨neg_one_le_cosine x y, cosine_le_one x y⟩,
    ?_, ?_, ?_, ?_⟩
  · intro a ha hn
    have hlen : ¬ (a.length ≠ a.length ∨ a.length = 0) := by
      simp [List.length_eq_zero, ha]
    simp only [cosine, if_neg hlen, if_neg (by simp [hn] : ¬ (sumSq a = 0 ∨ sumSq a = 0))]
    rw [show dotProd a a = sumSq a from rfl,
      Real.mul_self_sqrt (sumSq_nonneg a), div_self hn]
    rw [min_self, max_eq_right (by norm_num)]
  · intro x; cases x <;> simp [cosine]
  · intro a b h
    simp [cosine, if_pos (Or.inl h)]
  · intro y
    cases y with
    | none => simp [cosine]
    | some b =>
      simp only [cosine]
      rw [if_pos (Or.inr List.length_nil)]
  · intro a b h
    simp only [cosine]
    by_cases hl : a.length ≠ b.length ∨ a.length = 0
    · rw [if_pos hl]
    · rw [if_neg hl, if_pos h]

/-- Witness for `cosine_spec`: the self-similarity clause evaluated at
the concrete nonzero vector `[2]`. -/
theorem cosine_spec_witness : cosine (some [(2 : ℝ)]) (some [(2 : ℝ)]) = 1 :=
  cosine_spec.1 [(2 : ℝ)] (by simp) (by norm_num [sumSq, dotProd])

/-- C6 counterexample: `[0]` is a non-empty vector, yet
`cosine([0], [0]) = 0 ≠ 1` because its norm is zero — the claim
"for all non-empty vectors a, cosine(a, a) == 1" is false as stated. -/
theorem cosine_self_zero_norm :
    cosine (some [(0 : ℝ)]) (some [(0 : ℝ)]) = 0
    ∧ ([(0 : ℝ)] : List ℝ) ≠ [] ∧ (0 : ℝ) ≠ 1 := by
  refine ⟨?_, by simp, by norm_num⟩
  simp [cosine, sumSq, dotProd]

/-- C7 (amended): `normalize` returns `0` on a degenerate range
`max = min`; when `min < max` (the original claim did not require the
range to be properly ordered) every `v ≤ min` maps to `0` and every
`v ≥ max` maps to `1`; on every non-degenerate range the result is
`(v - min) / (max - min)` clamped into `[0, 1]`, and the result always
lies in `[0, 1]`. -/
theorem normalize_spec : ∀ v mn mx : ℝ,
    (mx = mn → normalize v mn mx = 0)
    ∧ (mn < mx → v ≤ mn → normalize v mn mx = 0)
    ∧ (mn < mx → mx ≤ v → normalize v mn mx = 1)
    ∧ (mx ≠ mn → normalize v mn mx = max 0 (min 1 ((v - mn) / (mx - mn))))
    ∧ 0 ≤ normalize v mn mx ∧ normalize v mn mx ≤ 1 := by
  intro v mn mx
  refine ⟨fun h => by simp [normalize, h], ?_, ?_, fun h => by simp [normalize, h], ?_, ?_⟩
  · intro hlt hle
    have hne : mx ≠ mn := ne_of_gt hlt
    have hq : (v - mn) / (mx - mn) ≤ 0 :=
      div_nonpos_of_nonpos_of_nonneg (by linarith) (by linarith)
    simp only [normalize, if_neg hne]
    rw [max_eq_left (le_trans (min_le_right _ _) hq)]
  · intro hlt hge
    have hne : mx ≠ mn := ne_of_gt hlt
    have hq : (1 : ℝ) ≤ (v - mn) / (mx - mn) := by
      rw [le_div_iff₀ (by linarith)]
      linarith
    simp only [normalize, if_neg hne]
    rw [min_eq_left hq, max_eq_right (by norm_num)]
  · simp only [normalize]
    split
    · norm_num
    · exact le_max_left _ _
  · simp only [normalize]
    split
    · norm_num
    · exact max_le (by norm_num) (min_le_left _ _)

/-- Witness for `normalize_spec`: the below-minimum and above-maximum
clauses evaluated on the concrete range `[0, 5]`. -/
theorem normalize_spec_witness : normalize (-2) 0 5 = 0 ∧ normalize 7 0 5 = 1 :=
  ⟨(normalize_spec (-2) 0 5).2.1 (by norm_num) (by norm_num),
   (normalize_spec 7 0 5).2.2.1 (by norm_num) (by norm_num)⟩

/-- C7 counterexample: on the reversed range `min = 5 > max = 3` the
value `v = 3 ≤ min` yields `normalize(3, 5, 3) = 1`, not `0` — the
claim's "for all v ≤ min the result is 0" fails when `max < min`. -/
theorem normalize_reversed_range :
    normalize 3 5 3 = 1 ∧ (3 : ℝ) ≤ 5 ∧ (1 : ℝ) ≠ 0 := by
  refine ⟨?_, by norm_num, by norm_num⟩
  have : ((3 : ℝ) - 5) / (3 - 5) = 1 := by norm_num
  simp [normalize, this]

/-- C5 (amended): `buildMetaVectorFromAI` never fails and always
returns the 14-element vector in the fixed field order; a *wholly
missing* nested object contributes the documented zero-defaults (slot 8
becoming `normalize(0, -1, 1)` and so on); but a missing sub-field of a
*present* object is passed through as a missing entry
(`undefined`/`NaN` in JavaScript) — not substituted by `0` as the
original claim stated. -/
theorem buildMetaVector_spec : ∀ meta : MetaScoring,
    (buildMetaVectorFromAI meta).length = 14
    ∧ (∀ bd, meta.brainDominance = some bd →
        (buildMetaVectorFromAI meta).take 2 = [bd.leftBrain, bd.rightBrain])
    ∧ (meta.brainDominance = none →
        (buildMetaVectorFromAI meta).take 2 = [some 0, some 0])
    ∧ (∀ ps, meta.processingStyle = some ps →
        ((buildMetaVectorFromAI meta).drop 2).take 2 = [ps.reflexive, ps.reasoning])
    ∧ (meta.processingStyle = none →
        ((buildMetaVectorFromAI meta).drop 2).take 2 = [some 0, some 0])
    ∧ (∀ ea, meta.emotionalAnalysis = some ea →
        ((buildMetaVectorFromAI meta).drop 4).take 5 =
          [ea.joy, ea.intensity, ea.engagement, ea.complexity,
           ea.sentiment.map (fun v => normalize v (-1) 1)])
    ∧ (meta.emotionalAnalysis = none →
        ((buildMetaVectorFromAI meta).drop 4).take 5 =
          [some 0, some 0, some 0, some 0, some (normalize 0 (-1) 1)])
    ∧ (∀ cm, meta.conversationMetrics = some cm →
        ((buildMetaVectorFromAI meta).drop 9).take 4 =
          [cm.depth.map (fun v => normalize v 0 100),
           cm.coherence.map (fun v => normalize v 0 100),
           cm.engagement.map (fun v => normalize v 0 100),
           cm.topicStability.map (fun v => normalize v 0 100)])
    ∧ (meta.conversationMetrics = none →
        ((buildMetaVectorFromAI meta).drop 9).take 4 =
          List.replicate 4 (some (normalize 0 0 100)))
    ∧ (∀ cs, meta.cognitiveStyle = some cs →
        (buildMetaVectorFromAI meta).drop 13 =
          [cs.strength.map (fun v => normalize v 0 100)])
    ∧ (meta.cognitiveStyle = none →
        (buildMetaVectorFromAI meta).drop 13 = [some (normalize 0 0 100)]) := by
  intro meta
  obtain ⟨obd, ops, oea, ocm, ocs⟩ := meta
  refine ⟨rfl, ?_, ?_, ?_, ?_, ?_, ?_, ?_, ?_, ?_, ?_⟩
  · intro bd h; cases h; rfl
  · intro h; cases h; rfl
  · intro ps h; cases h; rfl
  · intro h; cases h; rfl
  · intro ea h; cases h; rfl
  · intro h; cases h; rfl
  · intro cm h; cases h; rfl
  · intro h; cases h; rfl
  · intro cs h; cases h; rfl
  · intro h; cases h; rfl

/-- Witness for `buildMetaVector_spec`: a payload whose `brainDominance`
object is present with only `leftBrain` set, every other object
missing. -/
theorem buildMetaVector_spec_witness :
    (buildMetaVectorFromAI ⟨some ⟨some 1, none⟩, none, none, none, none⟩).take 2
        = [some 1, none]
    ∧ ((buildMetaVectorFromAI ⟨some ⟨some 1, none⟩, none, none, none, none⟩).drop 2).take 2
        = [some 0, some 0] :=
  ⟨(buildMetaVector_spec ⟨some ⟨some 1, none⟩, none, none, none, none⟩).2.1
      ⟨some 1, none⟩ rfl,
   (buildMetaVector_spec ⟨some ⟨some 1, none⟩, none, none, none, none⟩).2.2.2.2.1 rfl⟩

/-- C5 counterexample: with a *present* `brainDominance` object whose
sub-fields are missing, the first entry of the produced vector is the
missing value (`undefined` in JavaScript), not the claimed `0`. -/
theorem buildMetaVector_missing_subfield :
    (buildMetaVectorFromAI ⟨some ⟨none, none⟩, none, none, none, none⟩).head? = some none
    ∧ (none : Option ℝ) ≠ some 0 :=
  ⟨rfl, by simp⟩

/-- C3 (amended): `add` fails with the validation error when `text` is
absent or empty, or `embedding` / `metaVector` is absent (nullish); an
empty *array* passes the JavaScript truthiness guard and is accepted,
contrary to the original claim.  On success it persists exactly one
enriched record and returns the newly assigned id, with `score`
defaulting to 1.0 only when absent, `timestamp` defaulting to `now`,
and `lastAccessed` defaulting to the record's `timestamp`;
`ltm_addChunk` behaves identically. -/
theorem addChunk_spec : ∀ (now : ℝ) (newId : ℤ) store chunk,
    ((chunk.text = none ∨ chunk.text = some "" ∨ chunk.embedding = none
        ∨ chunk.metaVector = none) →
      stm_addChunk now newId store chunk = Except.error "Invalid chunk data provided")
    ∧ ((∀ t, chunk.text = some t → t ≠ "") → chunk.text ≠ none →
        chunk.embedding ≠ none → chunk.metaVector ≠ none →
        stm_addChunk now newId store chunk =
          Except.ok (store ++ [enrichChunk now newId chunk], newId))
    ∧ (chunk.score = none → (enrichChunk now newId chunk).score = some 1)
    ∧ (∀ s, chunk.score = some s → (enrichChunk now newId chunk).score = some s)
    ∧ (chunk.timestamp = none → (enrichChunk now newId chunk).timestamp = some now)
    ∧ (∀ ts, chunk.timestamp = some ts → chunk.lastAccessed = none →
        (enrichChunk now newId chunk).lastAccessed = some ts)
    ∧ (enrichChunk now newId chunk).id = some newId
    ∧ ltm_addChunk now newId store chunk = stm_addChunk now newId store chunk := by
  intro now newId store chunk
  refine ⟨?_, ?_, ?_, ?_, ?_, ?_, rfl, rfl⟩
  · intro h
    rcases h with h | h | h | h <;> simp [stm_addChunk, falsyText, falsyVec, h]
  · intro ht hn he hm
    have h1 : falsyText chunk.text = false := by
      cases htext : chunk.text with
      | none => exact absurd htext hn
      | some t => simp [falsyText, ht t htext]
    have h2 : falsyVec chunk.embedding = false := by
      cases he2 : chunk.embedding with
      | none => exact absurd he2 he
      | some v => simp [falsyVec]
    have h3 : falsyVec chunk.metaVector = false := by
      cases hm2 : chunk.metaVector with
      | none => exact absurd hm2 hm
      | some v => simp [falsyVec]
    simp [stm_addChunk, h1, h2, h3]
  · intro h; simp [enrichChunk, h]
  · intro s h; simp [enrichChunk, h]
  · intro h; simp [enrichChunk, h]
  · intro ts h hl; simp [enrichChunk, h, hl]

/-- Witness for `addChunk_spec`: the success clause evaluated at a
fully valid chunk. -/
theorem addChunk_spec_witness :
    stm_addChunk 7 4 [] cAdd = Except.ok ([enrichChunk 7 4 cAdd], 4) :=
  (addChunk_spec 7 4 [] cAdd).2.1
    (fun t h he => by rw [he] at h; simp [cAdd] at h)
    (by simp [cAdd]) (by simp [cAdd]) (by simp [cAdd])

/-- C3 counterexample: a chunk whose `embedding` and `metaVector` are
present but *empty arrays* is accepted — empty arrays are truthy in
JavaScript — while the claim demands a validation failure for empty
vectors. -/
theorem addChunk_accepts_empty_vectors :
    cEmptyVec.embedding = some ([] : List ℝ)
    ∧ cEmptyVec.metaVector = some ([] : List ℝ)
    ∧ stm_addChunk 0 1 [] cEmptyVec = Except.ok ([enrichChunk 0 1 cEmptyVec], 1) := by
  refine ⟨rfl, rfl, ?_⟩
  simp [stm_addChunk, cEmptyVec, falsyText, falsyVec]

theorem getChunk_id (store : List MemoryChunk) (id : ℤ) (c : MemoryChunk)
    (h : getChunk store id = some c) : c.id = some id := by
  have := List.find?_some h
  simpa using this

theorem getChunk_putChunk (store : List MemoryChunk) (id : ℤ) (c c1 : MemoryChunk)
    (h : getChunk store id = some c) (hid : c1.id = some id) :
    getChunk (putChunk store id c1) id = some c1 := by
  induction store with
  | nil => simp [getChunk] at h
  | cons x xs ih =>
    by_cases hx : x.id = some id
    · simp [getChunk, putChunk, List.find?_cons, hx, hid]
    · have h2 : getChunk xs id = some c := by
        simpa [getChunk, List.find?_cons, hx] using h
      have h3 := ih h2
      simpa [getChunk, putChunk, List.find?_cons, hx] using h3

theorem boost_ok (now : ℝ) (store : List MemoryChunk) (id : ℤ) (amount : ℝ)
    (c : MemoryChunk) (hid : 0 < id) (h : getChunk store id = some c) :
    stm_boostMemoryChunk now store id amount =
      Except.ok (putChunk store id
        { c with score := some (orD c.score 1 + amount), lastAccessed := some now }) := by
  unfold stm_boostMemoryChunk
  rw [if_neg (not_le.mpr hid), h]

/-- C4 (amended): `boost` fails with the invalid-id error on a
non-positive id and with the not-found error when no record has the id;
on success it sets `score` to `(score || 1) + amount` — the stored
score when it is present and nonzero, otherwise `1` — and `lastAccessed`
to the current time; boosting an id whose record has a *positive* score
twice with amount 1 each increases its score by exactly 2 and leaves
`lastAccessed` at the time of the second call.  (The original claim's
`score + amount` fails for a stored score of exactly 0.) -/
theorem boost_spec : ∀ (now : ℝ) (store : List MemoryChunk) (id : ℤ) (amount : ℝ),
    (id ≤ 0 →
      stm_boostMemoryChunk now store id amount = Except.error "Invalid ID for STM boost")
    ∧ (0 < id → getChunk store id = none →
      stm_boostMemoryChunk now store id amount = Except.error "Chunk not found")
    ∧ (∀ c, 0 < id → getChunk store id = some c →
      stm_boostMemoryChunk now store id amount =
        Except.ok (putChunk store id
          { c with score := some (orD c.score 1 + amount), lastAccessed := some now }))
    ∧ (∀ (now2 : ℝ) c s, 0 < id → getChunk store id = some c → c.score = some s → 0 < s →
      ∃ store1 store2,
        stm_boostMemoryChunk now store id 1 = Except.ok store1
        ∧ stm_boostMemoryChunk now2 store1 id 1 = Except.ok store2
        ∧ getChunk store2 id =
            some { c with score := some (s + 2), lastAccessed := some now2 }) := by
  intro now store id amount
  refine ⟨?_, ?_, ?_, ?_⟩
  · intro h; simp [stm_boostMemoryChunk, h]
  · intro hid h
    unfold stm_boostMemoryChunk
    rw [if_neg (not_le.mpr hid), h]
  · intro c hid h; exact boost_ok now store id amount c hid h
  · intro now2 c s hid h hs hpos
    have hcid : c.id = some id := getChunk_id store id c h
    have hs1 : orD c.score 1 + 1 = s + 1 := by
      simp [orD, hs, ne_of_gt hpos]
    set c1 : MemoryChunk :=
      { c with score := some (orD c.score 1 + 1), lastAccessed := some now } with hc1
    have hg1 : getChunk (putChunk store id c1) id = some c1 :=
      getChunk_putChunk store id c c1 h (by simp [hc1, hcid])
    set c2 : MemoryChunk :=
      { c1 with score := some (orD c1.score 1 + 1), lastAccessed := some now2 } with hc2
    refine ⟨putChunk store id c1, putChunk (putChunk store id c1) id c2,
      boost_ok now store id 1 c hid h,
      boost_ok now2 (putChunk store id c1) id 1 c1 hid hg1, ?_⟩
    rw [getChunk_putChunk (putChunk store id c1) id c1 c2 hg1 (by simp [hc2, hc1, hcid])]
    have hsc1 : c1.score = some (s + 1) := by simp [hc1, hs1]
    have hval : orD c1.score 1 + 1 = s + 2 := by
      have hne : s + 1 ≠ 0 := by positivity
      rw [hsc1]
      simp [orD, hne]
      ring
    simp [hc2, hc1, hval]

/-- Witness for `boost_spec`: double-boosting the sole record (score 3)
of a one-record store. -/
theorem boost_spec_witness :
    ∃ store1 store2,
      stm_boostMemoryChunk 10 [cBoost] 1 1 = Except.ok store1
      ∧ stm_boostMemoryChunk 20 store1 1 1 = Except.ok store2
      ∧ getChunk store2 1 =
          some { cBoost with score := some ((3 : ℝ) + 2), lastAccessed := some 20 } :=
  (boost_spec 10 [cBoost] 1 1).2.2.2 20 cBoost 3 (by norm_num) rfl rfl (by norm_num)

/-- C4 counterexample: boosting a record whose stored score is exactly
`0` by 1 yields score `2 = (0 || 1) + 1`, not the claimed `0 + 1`. -/
theorem boost_zero_score :
    stm_boostMemoryChunk 5 [cZeroScore] 1 1
      = Except.ok [{ cZeroScore with score := some 2, lastAccessed := some 5 }]
    ∧ cZeroScore.score = some 0 ∧ (2 : ℝ) ≠ 0 + 1 := by
  refine ⟨?_, rfl, by norm_num⟩
  have h : getChunk [cZeroScore] 1 = some cZeroScore := rfl
  rw [boost_ok 5 [cZeroScore] 1 1 cZeroScore (by norm_num) h]
  have : orD (some (0 : ℝ)) 1 + 1 = (2 : ℝ) := by
    simp [orD]; norm_num
  simp [putChunk, cZeroScore, this]

/-- C10: a record score of exactly `0` survives `add` (the `??` default
applies only to an absent score), but the `(score || 1)` reads in
`boost` and `decay` treat it as `1`: boosting sets the new score to
`1 + amount`, and decay computes the decayed score as if the stored
score were `1`. -/
theorem zero_score_spec : ∀ (now rate : ℝ) (newId : ℤ) (store : List MemoryChunk)
    (chunk c : MemoryChunk) (id : ℤ) (amount : ℝ),
    (chunk.score = some 0 → (enrichChunk now newId chunk).score = some 0)
    ∧ (0 < id → getChunk store id = some c → c.score = some 0 →
        stm_boostMemoryChunk now store id amount =
          Except.ok (putChunk store id
            { c with score := some (1 + amount), lastAccessed := some now }))
    ∧ (c.score = some 0 →
        decayedScore now rate c = decayedScore now rate { c with score := some 1 }) := by
  intro now rate newId store chunk c id amount
  refine ⟨?_, ?_, ?_⟩
  · intro h; simp [enrichChunk, h]
  · intro hid h hs
    rw [boost_ok now store id amount c hid h]
    have : orD c.score 1 + amount = 1 + amount := by simp [orD, hs]
    rw [this]
  · intro hs
    simp [decayedScore, orD, hs]

/-- Witness for `zero_score_spec`: all three clauses evaluated on the
concrete zero-score record. -/
theorem zero_score_spec_witness :
    (enrichChunk 0 2 cZeroScore).score = some 0
    ∧ stm_boostMemoryChunk 9 [cZeroScore] 1 2 =
        Except.ok (putChunk [cZeroScore] 1
          { cZeroScore with score := some (1 + 2), lastAccessed := some 9 })
    ∧ decayedScore 0 0.995 cZeroScore
        = decayedScore 0 0.995 { cZeroScore with score := some 1 } :=
  ⟨(zero_score_spec 0 0.995 2 [] cZeroScore cZeroScore 1 2).1 rfl,
   (zero_score_spec 9 0.995 2 [cZeroScore] cZeroScore cZeroScore 1 2).2.1
      (by norm_num) rfl rfl,
   (zero_score_spec 0 0.995 2 [] cZeroScore cZeroScore 1 2).2.2 rfl⟩

/-- C1 (amended): one decay sweep maps every record to its decayed
score `(score || 1) * rate ^ hours` — the stored score is read through
`||`, so an absent or zero score decays starting from `1` — then deletes
exactly the records whose decayed score falls below `minScore`
(counted in `deleted`) and persists the rest with their new scores
(counted in `updated`); the two counters partition the store, and no
surviving record has a score below `minScore`. -/
theorem decay_spec : ∀ (now rate minScore : ℝ) (store : List MemoryChunk),
    stm_decayMemoryStore now rate minScore store =
      ((store.filter (fun c => ! decide (decayedScore now rate c < minScore))).map
          (decayChunk now rate),
        (store.filter (fun c => ! decide (decayedScore now rate c < minScore))).length,
        (store.filter (fun c => decide (decayedScore now rate c < minScore))).length)
    ∧ (stm_decayMemoryStore now rate minScore store).2.1
        + (stm_decayMemoryStore now rate minScore store).2.2 = store.length
    ∧ ∀ c1 ∈ (stm_decayMemoryStore now rate minScore store).1, ∀ s,
        c1.score = some s → minScore ≤ s := by
  intro now rate minScore store
  have key : ∀ l : List MemoryChunk,
      stm_decayMemoryStore now rate minScore l =
        ((l.filter (fun c => ! decide (decayedScore now rate c < minScore))).map
            (decayChunk now rate),
          (l.filter (fun c => ! decide (decayedScore now rate c < minScore))).length,
          (l.filter (fun c => decide (decayedScore now rate c < minScore))).length) := by
    intro l
    induction l with
    | nil => simp [stm_decayMemoryStore]
    | cons c rest ih =>
      by_cases h : decayedScore now rate c < minScore
      · simp [stm_decayMemoryStore, h, ih]
      · simp [stm_decayMemoryStore, h, ih]
  have lenkey : ∀ l : List MemoryChunk,
      (l.filter (fun c => ! decide (decayedScore now rate c < minScore))).length
        + (l.filter (fun c => decide (decayedScore now rate c < minScore))).length
        = l.length := by
    intro l
    induction l with
    | nil => simp
    | cons c rest ih =>
      by_cases h : decayedScore now rate c < minScore
      · simp [List.filter_cons, h]
        omega
      · simp [List.filter_cons, h]
        omega
  refine ⟨key store, ?_, ?_⟩
  · rw [key store]
    exact lenkey store
  · intro c1 hc1 s hs
    rw [key store] at hc1
    simp only [List.mem_map, List.mem_filter] at hc1
    obtain ⟨c, ⟨hcs, hpred⟩, rfl⟩ := hc1
    have hns : ¬ decayedScore now rate c < minScore := by simpa using hpred
    have hsc : decayedScore now rate c = s := by
      simpa [decayChunk] using hs
    rw [← hsc]
    exact not_lt.mp hns

/-- Witness for `decay_spec`: the survivor clause instantiated on a
one-record store whose record decays to score `1` (all fields absent:
`score || 1 = 1`, elapsed hours `0`, `rate ^ 0 = 1`). -/
theorem decay_spec_witness : (0.05 : ℝ) ≤ 1 := by
  have hds : decayedScore 5 0.995 cW = 1 := by
    simp [decayedScore, orD, cW]
  have hmem : decayChunk 5 0.995 cW ∈ (stm_decayMemoryStore 5 0.995 0.05 [cW]).1 := by
    simp [stm_decayMemoryStore, hds]
    norm_num
  have hscore : (decayChunk 5 0.995 cW).score = some 1 := by
    simp [decayChunk, hds]
  exact (decay_spec 5 0.995 0.05 [cW]).2.2 (decayChunk 5 0.995 cW) hmem 1 hscore

/-- C1 counterexample: a record stored with score exactly `0` and zero
elapsed time.  The claim predicts deletion — its score times
`rate ^ 0 = 1` is `0 < 0.05` — but the sweep reads the score through
`||`, computes `1`, keeps the record and reports `deleted = 0`. -/
theorem decay_keeps_zero_score :
    stm_decayMemoryStore 0 0.995 0.05 [cZeroScore] =
      ([{ cZeroScore with score := some 1 }], 1, 0)
    ∧ cZeroScore.score = some 0
    ∧ (0 : ℝ) * (0.995 : ℝ) ^ (((0 : ℝ) - 0) / 3600000) < 0.05 := by
  have hds : decayedScore 0 0.995 cZeroScore = 1 := by
    simp [decayedScore, orD, cZeroScore]
  refine ⟨?_, rfl, ?_⟩
  · have hlt : ¬ decayedScore 0 0.995 cZeroScore < 0.05 := by
      rw [hds]; norm_num
    simp [stm_decayMemoryStore, hlt, decayChunk, hds]
    norm_num
  · simp
    norm_num

/-- C2 (amended): ranking a non-empty store scores every record with
`finalScore = 0.85 * (0.6 * cosine(e, embedding) + 0.4 * cosine(m,
metaVector)) + 0.15 * normalize(score || 1, 0, 5)` — the record score is
read through `||`, so an absent or zero score contributes
`normalize(1, 0, 5)`, unlike the original claim's `normalize(score, 0,
5)` — and returns a descending-`finalScore` sort of the scored records
truncated to at most three; ranking an empty store returns the empty
sequence rather than failing. -/
theorem rank_spec : ∀ (e m : List ℝ) (store : List MemoryChunk),
    (store ≠ [] →
      ∃ l, (store.map (scoreRecord e m)).Perm l
        ∧ List.Sorted rankGE l
        ∧ rankStore e m store = l.take 3)
    ∧ (rankStore e m store).length ≤ 3
    ∧ List.Sorted rankGE (rankStore e m store)
    ∧ (∀ c1 ∈ rankStore e m store, ∃ mem ∈ store,
        c1 = scoreRecord e m mem
        ∧ c1.finalScore = some
            (0.85 * (0.6 * cosine (some e) mem.embedding
                + 0.4 * cosine (some m) mem.metaVector)
              + 0.15 * normalize (orD mem.score 1) 0 5))
    ∧ rankStore e m [] = [] := by
  intro e m store
  by_cases hstore : store = []
  · subst hstore
    refine ⟨fun h => absurd rfl h, by simp [rankStore], by simp [rankStore], ?_, rfl⟩
    intro c1 hc1
    simp [rankStore] at hc1
  · have hlen : store.length > 0 := List.length_pos.mpr hstore
    have hdef : rankStore e m store =
        ((store.map (scoreRecord e m)).insertionSort rankGE).take 3 := by
      simp [rankStore, hlen]
    have hsorted : List.Sorted rankGE ((store.map (scoreRecord e m)).insertionSort rankGE) :=
      List.sorted_insertionSort rankGE _
    refine ⟨?_, ?_, ?_, ?_, rfl⟩
    · intro _
      exact ⟨(store.map (scoreRecord e m)).insertionSort rankGE,
        (List.perm_insertionSort rankGE _).symm, hsorted, hdef⟩
    · rw [hdef]; exact List.length_take_le _ _
    · rw [hdef]
      exact hsorted.sublist (List.take_sublist _ _)
    · intro c1 hc1
      rw [hdef] at hc1
      have hc2 : c1 ∈ (store.map (scoreRecord e m)).insertionSort rankGE :=
        (List.take_sublist _ _).mem hc1
      rw [List.mem_insertionSort] at hc2
      obtain ⟨mem, hmem, rfl⟩ := List.mem_map.mp hc2
      refine ⟨mem, hmem, rfl, ?_⟩
      have hfs : (scoreRecord e m mem).finalScore = some
          ((cosine (some e) mem.embedding * 0.6 + cosine (some m) mem.metaVector * 0.4)
              * 0.85
            + normalize (orD mem.score 1) 0 5 * 0.15) := rfl
      rw [hfs]
      congr 1
      ring

/-- Witness for `rank_spec`: the non-empty-store clause on a one-record
store. -/
theorem rank_spec_witness :
    ∃ l, ([rCex].map (scoreRecord [1] [1])).Perm l
      ∧ List.Sorted rankGE l ∧ rankStore [1] [1] [rCex] = l.take 3 :=
  (rank_spec [1] [1] [rCex]).1 (by simp)

/-- C2 counterexample: for a stored record with explicit score `0` and
unit vectors, the code's `finalScore` is `0.88` (the `|| 1` read turns
the score term into `normalize(1, 0, 5) = 0.2`), while the claimed
formula `0.85 * simScore + 0.15 * normalize(score, 0, 5)` evaluates to
`0.85`. -/
theorem rank_zero_score :
    (rankStore [1] [1] [rCex]).map (fun c => c.finalScore) = [some 0.88]
    ∧ 0.85 * (0.6 * cosine (some [1]) rCex.embedding
          + 0.4 * cosine (some [1]) rCex.metaVector)
        + 0.15 * normalize 0 0 5 = 0.85
    ∧ rCex.score = some 0
    ∧ some (0.88 : ℝ) ≠ some (0.85 : ℝ) := by
  have hc : cosine (some [(1 : ℝ)]) (some [(1 : ℝ)]) = 1 := by
    have h1 : sumSq [(1 : ℝ)] = 1 := by norm_num [sumSq, dotProd]
    simp [cosine, h1, dotProd]
  have hn : normalize (orD (some (0 : ℝ)) 1) 0 5 = 0.2 := by
    have h2 : orD (some (0 : ℝ)) 1 = 1 := by simp [orD]
    rw [h2]
    simp [normalize]
    norm_num
  refine ⟨?_, ?_, rfl, by norm_num⟩
  · have hfs : (scoreRecord [1] [1] rCex).finalScore = some 0.88 := by
      simp only [scoreRecord, rCex, hc, hn]
      norm_num
    simp [rankStore, List.insertionSort, List.orderedInsert, hfs]
  · rw [show rCex.embedding = some [(1 : ℝ)] from rfl,
      show rCex.metaVector = some [(1 : ℝ)] from rfl, hc]
    have : normalize 0 0 5 = 0 := by
      simp [normalize]
    rw [this]
    norm_num

/-- C9: on a successfully completed reflection cycle (non-empty
synthesized text, Agent-B credential configured), the reflection is
inserted into the Short-Term store with seed score 2.0 and source
"Autonomous Reflection"; when the secondary (Agent-C) credential is
configured and its embedding/meta step succeeds it is additionally
inserted into the Long-Term store with seed score 2.5; and a failure of
the Long-Term step leaves the Long-Term store untouched without undoing
or preventing the Short-Term insertion. -/
theorem reflection_spec : ∀ (ctx : ReflectionCtx) (stm ltm : List MemoryChunk)
    (stmId ltmId : ℤ),
    ctx.reflection ≠ "" → ctx.apiKeyB = true →
    ((reflectionComplete ctx stm ltm stmId ltmId).1
        = stm ++ [enrichChunk ctx.nowSTM stmId (stmReflectionChunk ctx)]
      ∧ (enrichChunk ctx.nowSTM stmId (stmReflectionChunk ctx)).score = some 2
      ∧ (enrichChunk ctx.nowSTM stmId (stmReflectionChunk ctx)).source
          = "Autonomous Reflection")
    ∧ (∀ emb mm mv, ctx.apiKeyC = true → ctx.ltmData = Except.ok (emb, mm, mv) →
        (reflectionComplete ctx stm ltm stmId ltmId).2
          = ltm ++ [enrichChunk ctx.nowLTM ltmId (ltmReflectionChunk ctx emb mm mv)]
        ∧ (enrichChunk ctx.nowLTM ltmId (ltmReflectionChunk ctx emb mm mv)).score
            = some 2.5)
    ∧ (∀ err, ctx.ltmData = Except.error err →
        (reflectionComplete ctx stm ltm stmId ltmId).2 = ltm)
    ∧ (ctx.apiKeyC = false →
        (reflectionComplete ctx stm ltm stmId ltmId).2 = ltm) := by
  intro ctx stm ltm stmId ltmId hr hb
  have hguard : ctx.reflection ≠ "" ∧ (ctx.apiKeyB = true) := ⟨hr, hb⟩
  have hadd : stm_addChunk ctx.nowSTM stmId stm (stmReflectionChunk ctx) =
      Except.ok (stm ++ [enrichChunk ctx.nowSTM stmId (stmReflectionChunk ctx)], stmId) := by
    have h1 : falsyText (some ctx.reflection) = false := by
      show (ctx.reflection == "") = false
      exact beq_eq_false_iff_ne.mpr hr
    simp [stm_addChunk, stmReflectionChunk, h1, falsyVec]
  have hladd : ∀ emb mm mv,
      ltm_addChunk ctx.nowLTM ltmId ltm (ltmReflectionChunk ctx emb mm mv) =
        Except.ok
          (ltm ++ [enrichChunk ctx.nowLTM ltmId (ltmReflectionChunk ctx emb mm mv)],
            ltmId) := by
    intro emb mm mv
    have h1 : falsyText (some ctx.reflection) = false := by
      show (ctx.reflection == "") = false
      exact beq_eq_false_iff_ne.mpr hr
    simp [ltm_addChunk, ltmReflectionChunk, h1, falsyVec]
  refine ⟨⟨?_, rfl, rfl⟩, ?_, ?_, ?_⟩
  · unfold reflectionComplete
    rw [if_pos hguard, hadd]
    by_cases hc : ctx.apiKeyC
    · simp only [hc, if_true]
      cases hld : ctx.ltmData with
      | error err => rfl
      | ok v =>
        obtain ⟨emb, mm, mv⟩ := v
        dsimp only
        rw [hladd emb mm mv]
    · simp [hc]
  · intro emb mm mv hc hld
    refine ⟨?_, rfl⟩
    unfold reflectionComplete
    rw [if_pos hguard, hadd]
    simp only [hc, if_true, hld]
    rw [hladd emb mm mv]
  · intro err hld
    unfold reflectionComplete
    rw [if_pos hguard, hadd]
    by_cases hc : ctx.apiKeyC
    · simp only [hc, if_true, hld]
    · simp [hc]
  · intro hc
    unfold reflectionComplete
    rw [if_pos hguard, hadd]
    simp [hc]

/-- Witness for `reflection_spec`: the concrete contexts `ctxFail`
(long-term step fails) and `ctxOk` (long-term step succeeds). -/
theorem reflection_spec_witness :
    (reflectionComplete ctxFail [] [] 1 1).1
        = [enrichChunk ctxFail.nowSTM 1 (stmReflectionChunk ctxFail)]
    ∧ (reflectionComplete ctxFail [] [] 1 1).2 = []
    ∧ (reflectionComplete ctxOk [] [] 1 1).2
        = [enrichChunk ctxOk.nowLTM 1 (ltmReflectionChunk ctxOk [1] {} [1])] :=
  ⟨((reflection_spec ctxFail [] [] 1 1 (by decide) rfl).1).1,
   (reflection_spec ctxFail [] [] 1 1 (by decide) rfl).2.2.1 "ltm failed" rfl,
   ((reflection_spec ctxOk [] [] 1 1 (by decide) rfl).2.1 [1] {} [1] rfl rfl).1⟩

/-- C8 (amended): for a string with length in `[50, 1000]`, no
blank-line paragraph break (the `/\n\s*\n/` split returns the string
whole), **and no leading or trailing whitespace**, `chunkText` returns
exactly `[s]`.  (The source trims every paragraph, so the original
claim fails for inputs with surrounding whitespace.) -/
theorem chunkText_short : ∀ s : List Char,
    50 ≤ s.length → s.length ≤ 1000 → splitOnBlank s = [s] → jsTrim s = s →
    chunkText s = [s] := by
  intro s h50 h1000 hsplit htrim
  have hne : s.isEmpty = false := by
    cases s with
    | nil => simp at h50
    | cons c cs => simp
  have h1200 : s.length ≤ 1200 := by omega
  unfold chunkText
  rw [hsplit]
  simp [htrim, hne, h50, h1200]

/-- Witness for `chunkText_short`: sixty identical letters. -/
theorem chunkText_short_witness :
    chunkText (List.replicate 60 'b') = [List.replicate 60 'b'] :=
  chunkText_short (List.replicate 60 'b') (by decide) (by decide) (by decide) (by decide)

/-- C8 counterexample: fifty letters followed by one space has length
51 ∈ [50, 1000] and contains no blank-line break, yet `chunkText`
returns the trimmed paragraph rather than the string itself. -/
theorem chunkText_untrimmed :
    chunkText (List.replicate 50 'a' ++ [' ']) = [List.replicate 50 'a']
    ∧ 50 ≤ (List.replicate 50 'a' ++ [' ']).length
    ∧ (List.replicate 50 'a' ++ [' ']).length ≤ 1000
    ∧ splitOnBlank (List.replicate 50 'a' ++ [' '])
        = [List.replicate 50 'a' ++ [' ']]
    ∧ ([List.replicate 50 'a'] : List (List Char))
        ≠ [List.replicate 50 'a' ++ [' ']] :=
  ⟨by decide, by decide, by decide, by decide, by decide⟩

end

end Pinkmemory
